import Mathlib

/-!
# Verification of the Resend mailer adapter (`tools/mailer/resend.go`)

A shallow embedding of the `ResendClient` mail provider adapter and the parts
of its environment it depends on, with theorems checking the natural-language
specification of the mailer subsystem against the code.

Modelling conventions:
* Go strings are Lean `String`s; byte streams are `List Nat` with every
  element `< 256`.
* Go maps (`Headers`, `Attachments`, `InlineAttachments`) are association
  lists; Go's unspecified map-iteration order becomes the list order, which
  is irrelevant to every property proved here.
* Fallible Go calls return `Except String α`; a Go `error` result is
  `Option String` (`none` = nil error).
* External collaborators that are not part of the translated source
  (`html2Text`, `detectReaderMimeType`, `security.PseudorandomString`, the
  HTTP transport) are abstracted as fields of an `Env` record, so theorems
  quantify over their behavior.
-/

namespace ResendVerify

/-! ## Byte lists -/

/-- A Go `[]byte`: every element is an actual byte value. -/
def ValidBytes (l : List Nat) : Prop := ∀ b ∈ l, b < 256

instance : DecidablePred ValidBytes := fun l =>
  inferInstanceAs (Decidable (∀ b ∈ l, b < 256))

/-! ## Base64 (Go `encoding/base64` `StdEncoding`)

`base64EncodeChars` embeds `base64.StdEncoding.EncodeToString`:
3-byte groups become 4 alphabet characters, a trailing 1- or 2-byte group is
padded with `=`. `base64DecodeChars` is the spec-side standard base64 decoder
used to state that the encoded content decodes back to the original bytes. -/

/-- The standard base64 alphabet, in index order. -/
def b64Alphabet : List Char :=
  "ABCDEFGHIJKLMNOPQRSTUVWXYZabcdefghijklmnopqrstuvwxyz0123456789+/".toList

/-- Character for a 6-bit value. -/
def b64Char (n : Nat) : Char := b64Alphabet.getD n 'A'

/-- Index of a character in the alphabet, scanning from position `k`. -/
def b64IdxAux : List Char → Char → Nat → Option Nat
  | [], _, _ => none
  | x :: xs, c, k => if x = c then some k else b64IdxAux xs c (k + 1)

/-- 6-bit value of an alphabet character (`none` for non-alphabet chars). -/
def b64Val (c : Char) : Option Nat := b64IdxAux b64Alphabet c 0

/-- Encode a full 3-byte group as 4 characters. -/
def enc3 (b1 b2 b3 : Nat) : List Char :=
  [b64Char (b1 / 4), b64Char ((b1 % 4) * 16 + b2 / 16),
   b64Char ((b2 % 16) * 4 + b3 / 64), b64Char (b3 % 64)]

/-- Standard base64 encoding of a byte list, as characters. -/
def base64EncodeChars : List Nat → List Char
  | [] => []
  | [b1] => [b64Char (b1 / 4), b64Char ((b1 % 4) * 16), '=', '=']
  | [b1, b2] => [b64Char (b1 / 4), b64Char ((b1 % 4) * 16 + b2 / 16),
                 b64Char ((b2 % 16) * 4), '=']
  | b1 :: b2 :: b3 :: rest => enc3 b1 b2 b3 ++ base64EncodeChars rest

/-- Standard base64 decoding: 4-character groups, `=`-padding only at the
end, trailing padding bits ignored (as Go's non-strict `StdEncoding`). -/
def base64DecodeChars : List Char → Option (List Nat)
  | [] => some []
  | c1 :: c2 :: c3 :: c4 :: rest =>
    match b64Val c1, b64Val c2 with
    | some v1, some v2 =>
      if c3 = '=' then
        if c4 = '=' ∧ rest = [] then some [v1 * 4 + v2 / 16] else none
      else
        match b64Val c3 with
        | some v3 =>
          if c4 = '=' then
            if rest = [] then some [v1 * 4 + v2 / 16, (v2 % 16) * 16 + v3 / 4]
            else none
          else
            match b64Val c4 with
            | some v4 =>
              (base64DecodeChars rest).map
                (fun r => (v1 * 4 + v2 / 16) :: ((v2 % 16) * 16 + v3 / 4) ::
                          ((v3 % 4) * 64 + v4 % 64) :: r)
            | none => none
        | none => none
    | _, _ => none
  | _ => none

/-- `base64.StdEncoding.EncodeToString`. -/
def base64Encode (l : List Nat) : String := ⟨base64EncodeChars l⟩

/-- Standard base64 decoding of a string. -/
def base64Decode (s : String) : Option (List Nat) := base64DecodeChars s.toList

theorem b64Val_b64Char : ∀ n, n < 64 → b64Val (b64Char n) = some n := by decide

theorem b64Char_ne_pad : ∀ n, n < 64 → b64Char n ≠ '=' := by decide

theorem base64_roundtrip (l : List Nat) (h : ValidBytes l) :
    base64DecodeChars (base64EncodeChars l) = some l := by
  induction l using base64EncodeChars.induct with
  | case1 => rfl
  | case2 b1 =>
    have hb1 : b1 < 256 := h b1 (by simp)
    rw [base64EncodeChars]
    rw [show ([b64Char (b1 / 4), b64Char ((b1 % 4) * 16), '=', '='] :
        List Char) = b64Char (b1 / 4) :: b64Char ((b1 % 4) * 16) ::
        '=' :: '=' :: [] from rfl]
    rw [base64DecodeChars]
    rw [b64Val_b64Char _ (by omega), b64Val_b64Char _ (by omega)]
    simp only [if_pos rfl, and_self, ite_true]
    congr 1
    have : (b1 / 4) * 4 + ((b1 % 4) * 16) / 16 = b1 := by omega
    rw [this]
  | case3 b1 b2 =>
    have hb1 : b1 < 256 := h b1 (by simp)
    have hb2 : b2 < 256 := h b2 (by simp)
    rw [base64EncodeChars]
    rw [show ([b64Char (b1 / 4), b64Char ((b1 % 4) * 16 + b2 / 16),
        b64Char ((b2 % 16) * 4), '='] : List Char) = b64Char (b1 / 4) ::
        b64Char ((b1 % 4) * 16 + b2 / 16) :: b64Char ((b2 % 16) * 4) ::
        '=' :: [] from rfl]
    rw [base64DecodeChars]
    rw [b64Val_b64Char _ (by omega), b64Val_b64Char _ (by omega)]
    simp only
    rw [if_neg (b64Char_ne_pad _ (by omega))]
    rw [b64Val_b64Char _ (by omega)]
    simp only [if_pos rfl, ite_true]
    congr 2
    · omega
    · congr 1; omega
  | case4 b1 b2 b3 rest ih =>
    have hb1 : b1 < 256 := h b1 (by simp)
    have hb2 : b2 < 256 := h b2 (by simp)
    have hb3 : b3 < 256 := h b3 (by simp)
    have hrest : ValidBytes rest := fun b hb => h b (by simp [hb])
    rw [base64EncodeChars, enc3]
    rw [show ([b64Char (b1 / 4), b64Char ((b1 % 4) * 16 + b2 / 16),
        b64Char ((b2 % 16) * 4 + b3 / 64), b64Char (b3 % 64)] : List Char) ++
        base64EncodeChars rest = b64Char (b1 / 4) ::
        b64Char ((b1 % 4) * 16 + b2 / 16) :: b64Char ((b2 % 16) * 4 + b3 / 64) ::
        b64Char (b3 % 64) :: base64EncodeChars rest from rfl]
    rw [base64DecodeChars]
    rw [b64Val_b64Char _ (by omega), b64Val_b64Char _ (by omega)]
    simp only
    rw [if_neg (b64Char_ne_pad _ (by omega))]
    rw [b64Val_b64Char _ (by omega)]
    simp only
    rw [if_neg (b64Char_ne_pad _ (by omega))]
    rw [b64Val_b64Char _ (by omega)]
    rw [ih hrest]
    simp only [Option.map_some', Option.some.injEq, List.cons.injEq, and_true]
    exact ⟨by omega, by omega, by omega⟩

/-! ## String helpers (`strings.EqualFold`, `strings.Split` on `"@"`) -/

/-- ASCII lowercasing of one character (the fragment of Unicode simple
folding exercised by header names). -/
def asciiLowerChar (c : Char) : Char :=
  if 'A' ≤ c ∧ c ≤ 'Z' then Char.ofNat (c.toNat + 32) else c

/-- `strings.EqualFold` restricted to ASCII case folding. -/
def eqFold (a b : String) : Bool :=
  a.data.map asciiLowerChar = b.data.map asciiLowerChar

/-- `strings.Split(s, "@")` on the character list of `s`. -/
def splitAtSign : List Char → List (List Char)
  | [] => [[]]
  | c :: cs =>
    if c = '@' then [] :: splitAtSign cs
    else
      match splitAtSign cs with
      | [] => [[c]]
      | h :: t => (c :: h) :: t

theorem splitAtSign_ne_nil (l : List Char) : splitAtSign l ≠ [] := by
  induction l with
  | nil => simp [splitAtSign]
  | cons c cs ih =>
    rw [splitAtSign]
    split
    · simp
    · cases h : splitAtSign cs with
      | nil => simp
      | cons x xs => simp

theorem length_splitAtSign (l : List Char) :
    (splitAtSign l).length = l.count '@' + 1 := by
  induction l with
  | nil => simp [splitAtSign]
  | cons c cs ih =>
    rw [splitAtSign, List.count_cons]
    split
    · rename_i hc
      simp [hc, ih]
    · rename_i hc
      cases h : splitAtSign cs with
      | nil => exact absurd h (splitAtSign_ne_nil cs)
      | cons x xs =>
        rw [h] at ih
        simp only [List.length_cons] at ih ⊢
        simp [hc, ih]

theorem splitAtSign_no_at (l : List Char) (h : '@' ∉ l) : splitAtSign l = [l] := by
  induction l with
  | nil => rfl
  | cons c cs ih =>
    have hc : c ≠ '@' := fun e => h (by simp [e])
    have hcs : '@' ∉ cs := fun e => h (by simp [e])
    rw [splitAtSign, if_neg hc, ih hcs]

theorem splitAtSign_single (pre post : List Char)
    (hpre : '@' ∉ pre) (hpost : '@' ∉ post) :
    splitAtSign (pre ++ '@' :: post) = [pre, post] := by
  induction pre with
  | nil =>
    rw [List.nil_append, splitAtSign, if_pos rfl, splitAtSign_no_at post hpost]
  | cons c cs ih =>
    have hc : c ≠ '@' := fun e => hpre (by simp [e])
    have hcs : '@' ∉ cs := fun e => hpre (by simp [e])
    rw [List.cons_append, splitAtSign, if_neg hc, ih hcs]

/-! ## Data model (`tools/mailer`) -/

/-- `net/mail.Address`: a sender/recipient with display name and address. -/
structure Address where
  name : String
  address : String
deriving DecidableEq

/-- An attachment's `io.Reader`, abstracted to its observable behavior in
`prepareAttachment`: it either yields its full byte content (with the MIME
sniffer succeeding), or fails at the MIME-detection step, or fails while
being read to completion. -/
inductive AttachSource where
  | bytes (content : List Nat)
  | detectFailure (emsg : String)
  | readFailure (emsg : String)
deriving DecidableEq

/-- `mailer.Message`: the canonical email representation. Go maps
(`Headers`, `Attachments`, `InlineAttachments`) are association lists. -/
structure Message where
  From : Address
  To : List Address
  Cc : List Address
  Bcc : List Address
  Subject : String
  HTML : String
  Text : String
  Headers : List (String × String)
  Attachments : List (String × AttachSource)
  InlineAttachments : List (String × AttachSource)

/-- `mailer.SendEvent`: wraps exactly one Message. -/
structure SendEvent where
  message : Message

/-- `resendAttachment`: one entry of the Resend API payload attachment list. -/
structure ResendAttachment where
  Filename : String
  Content : String
  ContentType : String
deriving DecidableEq

/-- `resendPayload`: the JSON payload for the Resend API, prior to
serialization. -/
structure ResendPayload where
  From : String
  To : List String
  Cc : List String
  Bcc : List String
  Subject : String
  HTML : String
  Text : String
  Headers : List (String × String)
  Attachments : List ResendAttachment
deriving DecidableEq

/-- `resendErrorResponse`: the decoded provider error body. -/
structure ResendErrorResponse where
  statusCode : Int
  message : String
  name : String
deriving DecidableEq

/-- The single HTTP request `send` constructs: POST to the fixed endpoint
with auth and content-type headers. The body is kept as the structured
payload (JSON serialization of `resendPayload` is injective and inspected
by no claim). -/
structure HttpRequest where
  method : String
  url : String
  authorization : String
  contentType : String
  body : ResendPayload
deriving DecidableEq

/-- An HTTP response as observed by `send`. -/
structure HttpResponse where
  statusCode : Int
  body : String
deriving DecidableEq

/-- External collaborators of `resend.go`, abstracted as functions:
`html2Text` (HTML→plain-text utility), `detectMime` (the MIME type
`detectReaderMimeType` reports for a healthy stream's bytes),
`rand` (`security.PseudorandomString`), and `transport` (the HTTP client;
`Except.error` is a network-level failure of `client.Do`). -/
structure Env where
  html2Text : String → Except String String
  detectMime : List Nat → String
  rand : Nat → String
  transport : HttpRequest → Except String HttpResponse

/-- Outcome of a `Send`/`send` call: the returned Go error (`none` = nil)
and the list of HTTP requests issued during the call. -/
structure SendResult where
  err : Option String
  requests : List HttpRequest
deriving DecidableEq

/-! ## Send-interception hook

The `tools/hook` package is an external collaborator of `resend.go` (only
its call sites are part of the translated source), so the observer chain is
modelled from the spec. -/

/-- Modelled from the spec: `tools/hook` observers are absent from the
source; per §4.4 each observer, in registration order, may inspect/mutate
the event and continue the chain, or terminate the chain early by returning
without forwarding, in which case the overall result is whatever that
observer returns. -/
inductive Observer where
  | proceed (f : SendEvent → SendEvent)
  | stop (result : Option String)

/-- Modelled from the spec: `hook.Hook.Trigger` invokes the registered
observers in order on the event; the terminal action of the chain, if
reached, is the provider transmission. An early-terminating observer yields
its own result and no network request is made. -/
def triggerHook (observers : List Observer) (e : SendEvent)
    (terminal : SendEvent → SendResult) : SendResult :=
  match observers with
  | [] => terminal e
  | .proceed f :: rest => triggerHook rest (f e) terminal
  | .stop result :: _ => ⟨result, []⟩

/-! ## Address rendering

`addressesToStrings` and `net/mail.Address.String` are outside the
translated source. -/

/-- Modelled from the spec: the address list helper renders each address as
`"Name <addr>"` when a name is present, else just `addr` (§4.1). -/
def addressToString (a : Address) : String :=
  if a.name = "" then a.address else a.name ++ " <" ++ a.address ++ ">"

/-- Modelled from the spec: string-address lists for To/Cc/Bcc preserve
input order (§4.1). -/
def addressesToStrings (l : List Address) : List String := l.map addressToString

/-! ## Minimal JSON object decoder

A model of `encoding/json.Unmarshal` into `resendErrorResponse`, covering
flat objects with string/integer/boolean/null members (unknown keys are
ignored, as Go does); inputs outside this fragment are rejected. -/

/-- Skip JSON whitespace. -/
def skipWs : List Char → List Char
  | c :: cs => if c = ' ' ∨ c = '\t' ∨ c = '\n' ∨ c = '\r' then skipWs cs else c :: cs
  | [] => []

/-- Parse the remainder of a JSON string literal (opening quote already
consumed), handling the simple escapes. -/
def parseStrChars : List Char → Option (List Char × List Char)
  | [] => none
  | '"' :: rest => some ([], rest)
  | '\\' :: c :: rest =>
    match (match c with
           | '"' => some '"'
           | '\\' => some '\\'
           | '/' => some '/'
           | 'n' => some '\n'
           | 't' => some '\t'
           | 'r' => some '\r'
           | _ => none) with
    | some d => (parseStrChars rest).map (fun p => (d :: p.1, p.2))
    | none => none
  | c :: rest => (parseStrChars rest).map (fun p => (c :: p.1, p.2))

/-- Accumulate decimal digits. -/
def digitsToNat : List Char → Nat → Nat
  | [], acc => acc
  | c :: cs, acc => digitsToNat cs (acc * 10 + (c.toNat - '0'.toNat))

/-- Parse a JSON integer. -/
def parseNum (l : List Char) : Option (Int × List Char) :=
  match l with
  | '-' :: rest =>
    let p := rest.span (fun c => c.isDigit)
    if p.1.isEmpty then none else some (-(digitsToNat p.1 0 : Int), p.2)
  | _ =>
    let p := l.span (fun c => c.isDigit)
    if p.1.isEmpty then none else some ((digitsToNat p.1 0 : Int), p.2)

/-- A JSON member value in the supported fragment. -/
inductive JVal where
  | str (s : String)
  | num (n : Int)
  | boolean (b : Bool)
  | null
deriving DecidableEq

/-- Parse one JSON value of the supported fragment. -/
def parseJVal (l : List Char) : Option (JVal × List Char) :=
  match skipWs l with
  | '"' :: rest => (parseStrChars rest).map (fun p => (JVal.str ⟨p.1⟩, p.2))
  | 't' :: 'r' :: 'u' :: 'e' :: rest => some (JVal.boolean true, rest)
  | 'f' :: 'a' :: 'l' :: 's' :: 'e' :: rest => some (JVal.boolean false, rest)
  | 'n' :: 'u' :: 'l' :: 'l' :: rest => some (JVal.null, rest)
  | l2 => (parseNum l2).map (fun p => (JVal.num p.1, p.2))

/-- Parse the members of an object after its `{` (at least one member),
up to and including the closing `}`. -/
def parsePairs : Nat → List Char → Option (List (String × JVal) × List Char)
  | 0, _ => none
  | fuel + 1, l =>
    match skipWs l with
    | '"' :: rest =>
      match parseStrChars rest with
      | none => none
      | some (key, r1) =>
        match skipWs r1 with
        | ':' :: r2 =>
          match parseJVal r2 with
          | none => none
          | some (v, r3) =>
            match skipWs r3 with
            | ',' :: r4 => (parsePairs fuel r4).map (fun p => ((⟨key⟩, v) :: p.1, p.2))
            | '}' :: r4 => some ([(⟨key⟩, v)], r4)
            | _ => none
        | _ => none
    | _ => none

/-- Parse a whole input as a JSON object (or `null`, which Go unmarshals
into the zero struct), requiring the input to be fully consumed. -/
def parseTopObject (l : List Char) : Option (List (String × JVal)) :=
  match skipWs l with
  | '{' :: rest =>
    (match skipWs rest with
     | '}' :: r2 => if skipWs r2 = [] then some [] else none
     | _ =>
       match parsePairs (rest.length + 1) rest with
       | some (ps, r) => if skipWs r = [] then some ps else none
       | none => none)
  | 'n' :: 'u' :: 'l' :: 'l' :: rest => if skipWs rest = [] then some [] else none
  | _ => none

/-- Fill the `resendErrorResponse` fields from parsed members; a later
duplicate key overwrites, unknown keys are ignored, `null` leaves the field
unchanged, a type-mismatched member is an unmarshal error. -/
def assembleErrResp : List (String × JVal) → ResendErrorResponse →
    Option ResendErrorResponse
  | [], acc => some acc
  | (k, v) :: rest, acc =>
    if k = "statusCode" then
      match v with
      | .num n => assembleErrResp rest { acc with statusCode := n }
      | .null => assembleErrResp rest acc
      | _ => none
    else if k = "message" then
      match v with
      | .str s => assembleErrResp rest { acc with message := s }
      | .null => assembleErrResp rest acc
      | _ => none
    else if k = "name" then
      match v with
      | .str s => assembleErrResp rest { acc with name := s }
      | .null => assembleErrResp rest acc
      | _ => none
    else assembleErrResp rest acc

/-- `json.Unmarshal(body, &errResp)`: `some` iff unmarshalling succeeds. -/
def jsonUnmarshalErrorResponse (s : String) : Option ResendErrorResponse :=
  match parseTopObject s.data with
  | none => none
  | some pairs => assembleErrResp pairs ⟨0, "", ""⟩

/-! ## The Resend adapter (`resend.go`) -/

/-- The fixed Resend API endpoint. -/
def resendAPIEndpoint : String := "https://api.resend.com/emails"

/-- `ResendClient`: the Resend mail client. `onSend` is the (possibly
uninitialized) hook; `some observers` models an initialized hook with the
given registered observer chain, `none` a nil hook pointer. -/
structure ResendClient where
  onSend : Option (List Observer)
  APIKey : String

/-- `(*ResendClient).prepareAttachment`: detect the MIME type of the
attachment stream, read it to completion, base64-encode the content. Either
failure propagates. -/
def ResendClient.prepareAttachment (env : Env) (name : String)
    (data : AttachSource) : Except String ResendAttachment :=
  match data with
  | .detectFailure emsg => .error emsg
  | .readFailure emsg => .error emsg
  | .bytes content =>
    .ok ⟨name, base64Encode content, env.detectMime content⟩

/-- The attachment loops of `send`: convert each (regular or inline)
attachment in order; the first failure aborts with an error wrapping the
offending filename (`failed to prepare [inline ]attachment <name>: <err>`). -/
def prepareAttachments (env : Env) (inline : Bool) :
    List (String × AttachSource) → Except String (List ResendAttachment)
  | [] => .ok []
  | (name, data) :: rest =>
    match ResendClient.prepareAttachment env name data with
    | .error e =>
      .error ("failed to prepare " ++ (if inline then "inline " else "") ++
              "attachment " ++ name ++ ": " ++ e)
    | .ok a =>
      match prepareAttachments env inline rest with
      | .error e => .error e
      | .ok more => .ok (a :: more)

/-- The custom-headers block of `send`: with a non-empty header map, copy
all entries (keys unchanged) and, if none of them equals `Message-ID`
case-insensitively and the From address splits on `@` into exactly two
parts, append a synthesized `<{PseudorandomString(15)}@{domain}>` entry.
With an empty header map the payload headers stay empty. -/
def buildHeaders (env : Env) (m : Message) : List (String × String) :=
  if m.Headers.isEmpty then []
  else
    let hasMessageId := m.Headers.any (fun kv => eqFold kv.1 "Message-ID")
    if hasMessageId then m.Headers
    else
      let fromParts := splitAtSign m.From.address.data
      if fromParts.length = 2 then
        m.Headers ++
          [("Message-ID",
            "<" ++ env.rand 15 ++ "@" ++ String.mk (fromParts.getD 1 []) ++ ">")]
      else m.Headers

/-- The payload-construction part of `send` (everything before the HTTP
request): recipients, subject, bodies, the best-effort HTML→text
derivation, headers, and both attachment lists appended in order. -/
def buildResendPayload (env : Env) (m : Message) : Except String ResendPayload :=
  match prepareAttachments env false m.Attachments with
  | .error e => .error e
  | .ok regular =>
    match prepareAttachments env true m.InlineAttachments with
    | .error e => .error e
    | .ok inlined =>
      .ok {
        From := addressToString m.From
        To := addressesToStrings m.To
        Cc := addressesToStrings m.Cc
        Bcc := addressesToStrings m.Bcc
        Subject := m.Subject
        HTML := m.HTML
        Text :=
          if m.Text = "" then
            match env.html2Text m.HTML with
            | .ok plain => plain
            | .error _ => ""
          else m.Text
        Headers := buildHeaders env m
        Attachments := regular ++ inlined
      }

/-- The error text `send` produces for a non-2xx response. -/
def resendAPIErrorText (status : Int) (detail : String) : String :=
  "resend API error (" ++ toString status ++ "): " ++ detail

/-- `(*ResendClient).send`: the internal transmission routine. Checks the
API key, builds the payload, issues the single POST request, classifies the
response by status. -/
def ResendClient.send (c : ResendClient) (env : Env) (m : Message) : SendResult :=
  if c.APIKey = "" then ⟨some "resend API key is required", []⟩
  else
    match buildResendPayload env m with
    | .error e => ⟨some e, []⟩
    | .ok payload =>
      let req : HttpRequest :=
        ⟨"POST", resendAPIEndpoint, "Bearer " ++ c.APIKey, "application/json",
         payload⟩
      match env.transport req with
      | .error e => ⟨some ("failed to send resend request: " ++ e), [req]⟩
      | .ok resp =>
        if resp.statusCode < 200 ∨ 300 ≤ resp.statusCode then
          match jsonUnmarshalErrorResponse resp.body with
          | some errResp =>
            if errResp.message ≠ "" then
              ⟨some (resendAPIErrorText resp.statusCode errResp.message), [req]⟩
            else
              ⟨some (resendAPIErrorText resp.statusCode resp.body), [req]⟩
          | none => ⟨some (resendAPIErrorText resp.statusCode resp.body), [req]⟩
        else ⟨none, [req]⟩

/-- `(*ResendClient).Send`: with a non-nil hook, trigger the observer chain
with the transmission routine as the terminal function; otherwise call the
transmission routine directly. -/
def ResendClient.Send (c : ResendClient) (env : Env) (m : Message) : SendResult :=
  match c.onSend with
  | some observers => triggerHook observers ⟨m⟩ (fun e => c.send env e.message)
  | none => c.send env m

/-! ## Helper lemmas -/

/-- A chain whose observers all forward reaches a `stop` observer, which
yields its own result and no requests. -/
theorem triggerHook_stop (pre : List Observer) (res : Option String)
    (rest : List Observer) (e : SendEvent) (t : SendEvent → SendResult)
    (hpre : ∀ o ∈ pre, ∃ f, o = Observer.proceed f) :
    triggerHook (pre ++ Observer.stop res :: rest) e t = ⟨res, []⟩ := by
  induction pre generalizing e with
  | nil => rfl
  | cons o os ih =>
    obtain ⟨f, rfl⟩ := hpre o (by simp)
    rw [List.cons_append, triggerHook]
    exact ih (f e) (fun o ho => hpre o (by simp [ho]))

/-! ## Concrete objects used by witnesses and counterexamples -/

/-- A deterministic environment: HTML→text succeeds, the transport answers
200. -/
def env0 : Env :=
  ⟨fun h => .ok ("plain " ++ h), fun _ => "application/octet-stream",
   fun n => String.mk (List.replicate n 'r'), fun _ => .ok ⟨200, "ok"⟩⟩

/-- `env0` with a failing HTML→text utility. -/
def envFailHtml : Env := { env0 with html2Text := fun _ => .error "boom" }

/-- `env0` with a transport answering 401 and a decodable error body. -/
def env401 : Env :=
  { env0 with transport := fun _ => .ok ⟨401, "\x7b\"message\":\"Invalid API key\"\x7d"⟩ }

/-- The spec's concrete scenario message: HTML body only, no Text, no
headers, no attachments. -/
def msg0 : Message :=
  ⟨⟨"Test", "test@example.com"⟩, [⟨"", "r@example.com"⟩], [], [], "S",
   "<p>Hi</p>", "", [], [], []⟩

/-- `msg0` with a custom header (and no Message-ID). -/
def msgHeaders : Message :=
  { msg0 with Headers := [("X-Custom-Header", "custom-value")] }

/-- `msg0` with a custom header and a From address containing no `@`. -/
def msgNoAt : Message :=
  { msg0 with From := ⟨"", "no-at-address"⟩,
              Headers := [("X-Custom-Header", "custom-value")] }

/-- `msg0` with a custom header and a From address containing two `@`. -/
def msgTwoAt : Message :=
  { msg0 with From := ⟨"", "a@b@c"⟩,
              Headers := [("X-Custom-Header", "custom-value")] }

/-- `msg0` with one regular and one inline healthy attachment. -/
def msgAtt : Message :=
  { msg0 with
      Attachments := [("test.txt", .bytes [116, 101, 115, 116])],
      InlineAttachments := [("pixel", .bytes [137, 80])] }

/-- `msg0` with a failing regular attachment stream. -/
def msgBadAtt : Message :=
  { msg0 with Attachments := [("bad.txt", .readFailure "read failed")] }

/-- `msg0` with a healthy regular attachment and a failing inline one. -/
def msgBadInline : Message :=
  { msg0 with
      Attachments := [("ok.txt", .bytes [104, 105])],
      InlineAttachments := [("logo.png", .detectFailure "detect failed")] }

/-- A client with no API key and no hook. -/
def client0 : ResendClient := ⟨none, ""⟩

/-- A client with an API key and no hook. -/
def client1 : ResendClient := ⟨none, "re_test_key"⟩

/-! ## Claims -/

/-- C1: for every Message, if the ResendClient's API key is the empty
string then the transmission routine `send` returns the non-nil
configuration error and performs zero network requests; in particular
`Send` (with no hook registered) does the same. -/
theorem send_missing_key_no_request (c : ResendClient) (env : Env) (m : Message)
    (hkey : c.APIKey = "") :
    c.send env m = ⟨some "resend API key is required", []⟩ ∧
    (c.onSend = none → c.Send env m = ⟨some "resend API key is required", []⟩) := by
  have hs : c.send env m = ⟨some "resend API key is required", []⟩ := by
    rw [ResendClient.send, if_pos hkey]
  refine ⟨hs, fun hnone => ?_⟩
  rw [ResendClient.Send, hnone]
  exact hs

/-- C1 witness: the empty-key client on the concrete scenario message. -/
theorem send_missing_key_no_request_witness :
    client0.send env0 msg0 = ⟨some "resend API key is required", []⟩ ∧
    (client0.onSend = none →
      client0.Send env0 msg0 = ⟨some "resend API key is required", []⟩) :=
  send_missing_key_no_request client0 env0 msg0 rfl

/-- C3: with no hook, `Send` calls the transmission routine directly; with
a registered chain whose first non-forwarding observer returns without
invoking the terminal function, no network request is issued and `Send`
returns exactly that observer's result. -/
theorem send_hook_short_circuit (c : ResendClient) (env : Env) (m : Message) :
    (c.onSend = none → c.Send env m = c.send env m) ∧
    (∀ pre res rest, c.onSend = some (pre ++ Observer.stop res :: rest) →
      (∀ o ∈ pre, ∃ f, o = Observer.proceed f) →
      c.Send env m = ⟨res, []⟩) := by
  constructor
  · intro hnone
    rw [ResendClient.Send, hnone]
  · intro pre res rest hhook hpre
    rw [ResendClient.Send, hhook]
    exact triggerHook_stop pre res rest ⟨m⟩ _ hpre

/-- C3 witness: a chain `[proceed id, stop (some "vetoed")]` short-circuits
with its own error and no request; the hook-free client sends directly. -/
theorem send_hook_short_circuit_witness :
    ((⟨none, "k"⟩ : ResendClient).onSend = none →
      (⟨none, "k"⟩ : ResendClient).Send env0 msg0 =
        (⟨none, "k"⟩ : ResendClient).send env0 msg0) ∧
    ((⟨some [Observer.proceed id, Observer.stop (some "vetoed")], "k"⟩ :
        ResendClient).Send env0 msg0 = ⟨some "vetoed", []⟩) :=
  ⟨(send_hook_short_circuit ⟨none, "k"⟩ env0 msg0).1,
   (send_hook_short_circuit
      ⟨some [Observer.proceed id, Observer.stop (some "vetoed")], "k"⟩ env0 msg0).2
      [Observer.proceed id] (some "vetoed") [] rfl
      (by intro o ho; simp at ho; exact ⟨id, ho⟩)⟩

/-- C10: with an empty API key but a hook whose chain short-circuits before
the terminal function, `Send` returns the observer's result, not the
missing-credentials configuration error — the API-key check lives inside
the terminal transmission routine. -/
theorem send_hook_preempts_key_check (c : ResendClient) (env : Env) (m : Message)
    (_hkey : c.APIKey = "")
    (pre : List Observer) (res : Option String) (rest : List Observer)
    (hhook : c.onSend = some (pre ++ Observer.stop res :: rest))
    (hpre : ∀ o ∈ pre, ∃ f, o = Observer.proceed f) :
    c.Send env m = ⟨res, []⟩ ∧
    (res ≠ some "resend API key is required" →
      (c.Send env m).err ≠ some "resend API key is required") := by
  have h : c.Send env m = ⟨res, []⟩ := by
    rw [ResendClient.Send, hhook]
    exact triggerHook_stop pre res rest ⟨m⟩ _ hpre
  exact ⟨h, fun hne => by rw [h]; exact hne⟩

/-- C10 witness: an empty-key client whose single observer stops with a nil
error: `Send` returns nil and issues no request. -/
theorem send_hook_preempts_key_check_witness :
    (⟨some [Observer.stop none], ""⟩ : ResendClient).Send env0 msg0 =
      ⟨none, []⟩ ∧
    ((none : Option String) ≠ some "resend API key is required" →
      ((⟨some [Observer.stop none], ""⟩ : ResendClient).Send env0 msg0).err ≠
        some "resend API key is required") :=
  send_hook_preempts_key_check ⟨some [Observer.stop none], ""⟩ env0 msg0 rfl
    [] none [] rfl (by intro o ho; simp at ho)

/-- The payload `buildResendPayload` produces for `msg0` under `env0` and
`env401` (same `html2Text`). -/
def msg0payload : ResendPayload :=
  ⟨"Test <test@example.com>", ["r@example.com"], [], [], "S", "<p>Hi</p>",
   "plain <p>Hi</p>", [], []⟩

/-- C4: classification of a received HTTP response. Any 2xx status yields a
nil error; any other status yields an error carrying the status code
together with the decoded provider message when the body decodes with a
non-empty message, otherwise the raw body. Exactly one request was issued. -/
theorem send_response_classification (c : ResendClient) (env : Env) (m : Message)
    (payload : ResendPayload) (req : HttpRequest) (resp : HttpResponse)
    (hkey : ¬ c.APIKey = "")
    (hhook : c.onSend = none)
    (hbuild : buildResendPayload env m = .ok payload)
    (hreq : req = ⟨"POST", resendAPIEndpoint, "Bearer " ++ c.APIKey,
                   "application/json", payload⟩)
    (htr : env.transport req = .ok resp) :
    (200 ≤ resp.statusCode ∧ resp.statusCode < 300 →
      c.Send env m = ⟨none, [req]⟩) ∧
    (resp.statusCode < 200 ∨ 300 ≤ resp.statusCode →
      (∀ er, jsonUnmarshalErrorResponse resp.body = some er → er.message ≠ "" →
        c.Send env m =
          ⟨some (resendAPIErrorText resp.statusCode er.message), [req]⟩) ∧
      (jsonUnmarshalErrorResponse resp.body = none →
        c.Send env m =
          ⟨some (resendAPIErrorText resp.statusCode resp.body), [req]⟩) ∧
      (∀ er, jsonUnmarshalErrorResponse resp.body = some er → er.message = "" →
        c.Send env m =
          ⟨some (resendAPIErrorText resp.statusCode resp.body), [req]⟩)) := by
  subst hreq
  have hSend : c.Send env m = c.send env m := by rw [ResendClient.Send, hhook]
  rw [hSend]
  have hbase : c.send env m =
      (if resp.statusCode < 200 ∨ 300 ≤ resp.statusCode then
        match jsonUnmarshalErrorResponse resp.body with
        | some errResp =>
          if errResp.message ≠ "" then
            ⟨some (resendAPIErrorText resp.statusCode errResp.message),
             [⟨"POST", resendAPIEndpoint, "Bearer " ++ c.APIKey,
               "application/json", payload⟩]⟩
          else
            ⟨some (resendAPIErrorText resp.statusCode resp.body),
             [⟨"POST", resendAPIEndpoint, "Bearer " ++ c.APIKey,
               "application/json", payload⟩]⟩
        | none =>
          ⟨some (resendAPIErrorText resp.statusCode resp.body),
           [⟨"POST", resendAPIEndpoint, "Bearer " ++ c.APIKey,
             "application/json", payload⟩]⟩
      else
        ⟨none, [⟨"POST", resendAPIEndpoint, "Bearer " ++ c.APIKey,
                 "application/json", payload⟩]⟩) := by
    rw [ResendClient.send, if_neg hkey, hbuild]
    simp only [htr]
  constructor
  · intro h2xx
    rw [hbase, if_neg (by omega)]
  · intro hnon
    refine ⟨?_, ?_, ?_⟩
    · intro er her hne
      rw [hbase, if_pos hnon, her]
      simp only [hne, ite_true]
      exact if_pos hne
    · intro hnone
      rw [hbase, if_pos hnon, hnone]
    · intro er her hemp
      rw [hbase, if_pos hnon, her]
      exact if_neg (by simp [hemp])

/-- C4 witness: a 401 with body `{"message":"Invalid API key"}` produces
the decoded-message error; a 200 produces a nil error. Both issue exactly
one request. -/
theorem send_response_classification_witness :
    (client1.Send env401 msg0 =
      ⟨some (resendAPIErrorText 401 "Invalid API key"),
       [⟨"POST", resendAPIEndpoint, "Bearer " ++ client1.APIKey,
         "application/json", msg0payload⟩]⟩) ∧
    (client1.Send env0 msg0 =
      ⟨none, [⟨"POST", resendAPIEndpoint, "Bearer " ++ client1.APIKey,
               "application/json", msg0payload⟩]⟩) :=
  ⟨((send_response_classification client1 env401 msg0 msg0payload _
      ⟨401, "\x7b\"message\":\"Invalid API key\"\x7d"⟩ (by decide) rfl rfl rfl rfl).2
      (by decide)).1 ⟨0, "Invalid API key", ""⟩ rfl (by decide),
   (send_response_classification client1 env0 msg0 msg0payload _
      ⟨200, "ok"⟩ (by decide) rfl rfl rfl rfl).1 (by decide)⟩

/-- The attachment entry produced for a healthy source (total form, used to
describe `prepareAttachments` on all-healthy lists). -/
def attachmentOf (env : Env) (p : String × AttachSource) : ResendAttachment :=
  match p.2 with
  | .bytes b => ⟨p.1, base64Encode b, env.detectMime b⟩
  | .detectFailure _ => ⟨p.1, "", ""⟩
  | .readFailure _ => ⟨p.1, "", ""⟩

/-- On a list of healthy sources, `prepareAttachments` succeeds and maps
each entry through `attachmentOf`. -/
theorem prepareAttachments_ok (env : Env) (inline : Bool)
    (l : List (String × AttachSource))
    (h : ∀ p ∈ l, ∃ b, p.2 = AttachSource.bytes b) :
    prepareAttachments env inline l = .ok (l.map (attachmentOf env)) := by
  induction l with
  | nil => rfl
  | cons p rest ih =>
    obtain ⟨b, hb⟩ := h p (by simp)
    obtain ⟨name, src⟩ := p
    simp only at hb
    subst hb
    rw [List.map_cons, prepareAttachments]
    simp only [ResendClient.prepareAttachment, attachmentOf]
    rw [ih (fun q hq => h q (by simp [hq]))]

/-- A list whose healthy prefix is followed by a failing source makes
`prepareAttachments` abort with the wrapped error naming that filename. -/
theorem prepareAttachments_error (env : Env) (inline : Bool)
    (pre : List (String × AttachSource)) (name : String) (src : AttachSource)
    (e : String) (rest : List (String × AttachSource))
    (hpre : ∀ p ∈ pre, ∃ b, p.2 = AttachSource.bytes b)
    (hbad : ResendClient.prepareAttachment env name src = .error e) :
    prepareAttachments env inline (pre ++ (name, src) :: rest) =
      .error ("failed to prepare " ++ (if inline then "inline " else "") ++
              "attachment " ++ name ++ ": " ++ e) := by
  induction pre with
  | nil =>
    rw [List.nil_append, prepareAttachments, hbad]
  | cons p ps ih =>
    obtain ⟨b, hb⟩ := hpre p (by simp)
    obtain ⟨nm, s⟩ := p
    simp only at hb
    subst hb
    rw [List.cons_append, prepareAttachments]
    simp only [ResendClient.prepareAttachment]
    rw [ih (fun q hq => hpre q (by simp [hq]))]

/-- C7: the payload's text body equals `Text` unchanged when `Text` is
non-empty; otherwise it is the HTML→text derivation when that conversion
succeeds and stays empty when it fails — and in every case (the environment
is arbitrary, including an always-failing converter) the payload is still
built without error. -/
theorem send_text_derivation (env : Env) (m : Message)
    (hatt : ∀ p ∈ m.Attachments ++ m.InlineAttachments,
      ∃ b, p.2 = AttachSource.bytes b) :
    ∃ payload, buildResendPayload env m = .ok payload ∧
      (m.Text ≠ "" → payload.Text = m.Text) ∧
      (∀ t, m.Text = "" → env.html2Text m.HTML = .ok t → payload.Text = t) ∧
      (∀ e, m.Text = "" → env.html2Text m.HTML = .error e → payload.Text = "") := by
  have h1 := prepareAttachments_ok env false m.Attachments
    (fun p hp => hatt p (List.mem_append_left _ hp))
  have h2 := prepareAttachments_ok env true m.InlineAttachments
    (fun p hp => hatt p (List.mem_append_right _ hp))
  rw [buildResendPayload, h1, h2]
  refine ⟨_, rfl, ?_, ?_, ?_⟩
  · intro hne
    simp only [if_neg hne]
  · intro t hemp hok
    simp only [if_pos hemp, hok]
  · intro e hemp herr
    simp only [if_pos hemp, herr]

/-- C7 witness: a message with empty `Text` under the failing converter
still builds, with empty payload text; the same message under the
succeeding converter gets the derived text. -/
theorem send_text_derivation_witness :
    (∃ payload, buildResendPayload envFailHtml msg0 = .ok payload ∧
      (msg0.Text ≠ "" → payload.Text = msg0.Text) ∧
      (∀ t, msg0.Text = "" → envFailHtml.html2Text msg0.HTML = .ok t →
        payload.Text = t) ∧
      (∀ e, msg0.Text = "" → envFailHtml.html2Text msg0.HTML = .error e →
        payload.Text = "")) ∧
    (∃ payload, buildResendPayload env0 msg0 = .ok payload ∧
      (msg0.Text ≠ "" → payload.Text = msg0.Text) ∧
      (∀ t, msg0.Text = "" → env0.html2Text msg0.HTML = .ok t →
        payload.Text = t) ∧
      (∀ e, msg0.Text = "" → env0.html2Text msg0.HTML = .error e →
        payload.Text = "")) :=
  ⟨send_text_derivation envFailHtml msg0 (by intro p hp; simp [msg0] at hp),
   send_text_derivation env0 msg0 (by intro p hp; simp [msg0] at hp)⟩

/-- With no case-insensitive `Message-ID` among the headers and a From
address that does not split into exactly two parts on `@`, the header block
copies the headers and synthesizes nothing. -/
theorem buildHeaders_no_synth (env : Env) (m : Message)
    (hat : m.From.address.data.count '@' ≠ 1)
    (hmid : ∀ kv ∈ m.Headers, eqFold kv.1 "Message-ID" = false) :
    buildHeaders env m = m.Headers := by
  rw [buildHeaders]
  by_cases he : m.Headers.isEmpty
  · rw [if_pos he]
    exact (List.isEmpty_iff.mp he).symm
  · rw [if_neg he]
    simp only
    have hany : (m.Headers.any fun kv => eqFold kv.1 "Message-ID") = false := by
      rw [List.any_eq_false]
      intro kv hkv
      simp [hmid kv hkv]
    rw [hany]
    have hlen : ¬ (splitAtSign m.From.address.data).length = 2 := by
      rw [length_splitAtSign]
      omega
    simp only [Bool.false_eq_true, if_false, if_neg hlen]

/-- C9: for a Message whose From address has zero or two-plus `@`
characters (headers lacking a Message-ID), no Message-ID entry is
synthesized into the payload and the build still succeeds — a silent
no-op, not an error. -/
theorem send_no_messageid_without_single_at (env : Env) (m : Message)
    (hatt : ∀ p ∈ m.Attachments ++ m.InlineAttachments,
      ∃ b, p.2 = AttachSource.bytes b)
    (hat : m.From.address.data.count '@' ≠ 1)
    (hmid : ∀ kv ∈ m.Headers, eqFold kv.1 "Message-ID" = false) :
    ∃ payload, buildResendPayload env m = .ok payload ∧
      payload.Headers = m.Headers ∧
      ∀ kv ∈ payload.Headers, eqFold kv.1 "Message-ID" = false := by
  have h1 := prepareAttachments_ok env false m.Attachments
    (fun p hp => hatt p (List.mem_append_left _ hp))
  have h2 := prepareAttachments_ok env true m.InlineAttachments
    (fun p hp => hatt p (List.mem_append_right _ hp))
  rw [buildResendPayload, h1, h2]
  refine ⟨_, rfl, ?_, ?_⟩
  · exact buildHeaders_no_synth env m hat hmid
  · intro kv hkv
    rw [buildHeaders_no_synth env m hat hmid] at hkv
    exact hmid kv hkv

/-- C9 witness: a From address with zero `@` and one with two `@`, each
with a custom header, build payloads whose headers are exactly the given
ones, Message-ID free. -/
theorem send_no_messageid_without_single_at_witness :
    (∃ payload, buildResendPayload env0 msgNoAt = .ok payload ∧
      payload.Headers = msgNoAt.Headers ∧
      ∀ kv ∈ payload.Headers, eqFold kv.1 "Message-ID" = false) ∧
    (∃ payload, buildResendPayload env0 msgTwoAt = .ok payload ∧
      payload.Headers = msgTwoAt.Headers ∧
      ∀ kv ∈ payload.Headers, eqFold kv.1 "Message-ID" = false) :=
  ⟨send_no_messageid_without_single_at env0 msgNoAt
      (by intro p hp; simp [msgNoAt, msg0] at hp) (by decide) (by decide),
   send_no_messageid_without_single_at env0 msgTwoAt
      (by intro p hp; simp [msgTwoAt, msg0] at hp) (by decide) (by decide)⟩

/-- With a non-empty header map, none of whose keys is `Message-ID`
case-insensitively, and a From address with exactly one `@`, the header
block copies the headers unchanged and appends the synthesized Message-ID
whose domain is the substring after the `@`. -/
theorem buildHeaders_synth (env : Env) (m : Message) (pre post : List Char)
    (hne : ¬ m.Headers.isEmpty)
    (hmid : ∀ kv ∈ m.Headers, eqFold kv.1 "Message-ID" = false)
    (hsplit : m.From.address.data = pre ++ '@' :: post)
    (hpre : '@' ∉ pre) (hpost : '@' ∉ post) :
    buildHeaders env m = m.Headers ++
      [("Message-ID", "<" ++ env.rand 15 ++ "@" ++ String.mk post ++ ">")] := by
  rw [buildHeaders, if_neg hne]
  simp only
  have hany : (m.Headers.any fun kv => eqFold kv.1 "Message-ID") = false := by
    rw [List.any_eq_false]
    intro kv hkv
    simp [hmid kv hkv]
  rw [hany, hsplit, splitAtSign_single pre post hpre hpost]
  simp only [Bool.false_eq_true, if_false, List.length_cons, List.length_nil]
  rw [if_pos trivial]
  rfl

/-- C8: whenever `send` synthesizes a Message-ID (non-empty header map with
no case-insensitive Message-ID entry, From address with exactly one `@`),
the payload headers are the caller's headers copied with keys unchanged,
followed by a synthesized entry of the form
`<{random token of length 15}@{domain after the @ of From}>`. -/
theorem send_messageid_synthesis (env : Env) (m : Message) (pre post : List Char)
    (hatt : ∀ p ∈ m.Attachments ++ m.InlineAttachments,
      ∃ b, p.2 = AttachSource.bytes b)
    (hne : ¬ m.Headers.isEmpty)
    (hmid : ∀ kv ∈ m.Headers, eqFold kv.1 "Message-ID" = false)
    (hsplit : m.From.address.data = pre ++ '@' :: post)
    (hpre : '@' ∉ pre) (hpost : '@' ∉ post) :
    ∃ payload, buildResendPayload env m = .ok payload ∧
      payload.Headers = m.Headers ++
        [("Message-ID", "<" ++ env.rand 15 ++ "@" ++ String.mk post ++ ">")] := by
  have h1 := prepareAttachments_ok env false m.Attachments
    (fun p hp => hatt p (List.mem_append_left _ hp))
  have h2 := prepareAttachments_ok env true m.InlineAttachments
    (fun p hp => hatt p (List.mem_append_right _ hp))
  rw [buildResendPayload, h1, h2]
  exact ⟨_, rfl, buildHeaders_synth env m pre post hne hmid hsplit hpre hpost⟩

/-- C8 witness: the custom-header message gets its header copied and the
Message-ID `<rrrrrrrrrrrrrrr@example.com>` appended (the deterministic
witness generator returns 15 `r`s). -/
theorem send_messageid_synthesis_witness :
    ∃ payload, buildResendPayload env0 msgHeaders = .ok payload ∧
      payload.Headers = msgHeaders.Headers ++
        [("Message-ID",
          "<" ++ env0.rand 15 ++ "@" ++ String.mk "example.com".data ++ ">")] :=
  send_messageid_synthesis env0 msgHeaders "test".data "example.com".data
    (by intro p hp; simp [msgHeaders, msg0] at hp) (by decide) (by decide)
    (by decide) (by decide) (by decide)

/-- C2 counterexample: on the spec's concrete scenario (HTML body only, no
Text, empty header map), the built payload's header map contains no
case-insensitive Message-ID entry at all — nothing is synthesized, because
the header block only runs for a non-empty header map. -/
theorem send_messageid_empty_headers_counterexample :
    (buildResendPayload env0 msg0).map
        (fun p => p.Headers.any fun kv => eqFold kv.1 "Message-ID") =
      Except.ok false ∧
    (buildResendPayload env0 msg0).map (fun p => p.Headers) = Except.ok [] := by
  exact ⟨rfl, rfl⟩

/-- C2 (amended): for a Message whose header map is non-empty and contains
no case-insensitive Message-ID entry, and whose From address has exactly
one `@`, `send` adds a synthesized Message-ID entry to the payload headers
whose domain equals the substring after the `@` of the From address. -/
theorem send_messageid_domain (env : Env) (m : Message) (pre post : List Char)
    (hatt : ∀ p ∈ m.Attachments ++ m.InlineAttachments,
      ∃ b, p.2 = AttachSource.bytes b)
    (hne : ¬ m.Headers.isEmpty)
    (hmid : ∀ kv ∈ m.Headers, eqFold kv.1 "Message-ID" = false)
    (hsplit : m.From.address.data = pre ++ '@' :: post)
    (hpre : '@' ∉ pre) (hpost : '@' ∉ post) :
    ∃ payload, buildResendPayload env m = .ok payload ∧
      ("Message-ID", "<" ++ env.rand 15 ++ "@" ++ String.mk post ++ ">")
        ∈ payload.Headers := by
  have h1 := prepareAttachments_ok env false m.Attachments
    (fun p hp => hatt p (List.mem_append_left _ hp))
  have h2 := prepareAttachments_ok env true m.InlineAttachments
    (fun p hp => hatt p (List.mem_append_right _ hp))
  rw [buildResendPayload, h1, h2]
  refine ⟨_, rfl, ?_⟩
  rw [buildHeaders_synth env m pre post hne hmid hsplit hpre hpost]
  exact List.mem_append_right _ (by simp)

/-- C2 witness: the same custom-header message; the synthesized entry with
domain `example.com` (the substring after `@` in the From address) is
present in the payload headers. -/
theorem send_messageid_domain_witness :
    ∃ payload, buildResendPayload env0 msgHeaders = .ok payload ∧
      ("Message-ID",
       "<" ++ env0.rand 15 ++ "@" ++ String.mk "example.com".data ++ ">")
        ∈ payload.Headers :=
  send_messageid_domain env0 msgHeaders "test".data "example.com".data
    (by intro p hp; simp [msgHeaders, msg0] at hp) (by decide) (by decide)
    (by decide) (by decide) (by decide)

/-- C5: if reading or MIME-sniffing any attachment stream fails (first
failing entry after a healthy prefix, regular or inline), `send` aborts
before any network request with an error naming the offending filename,
and no request — in particular no partial attachment list — is issued. -/
theorem send_attachment_failure_aborts (c : ResendClient) (env : Env)
    (m : Message) (hkey : ¬ c.APIKey = "") (hhook : c.onSend = none) :
    (∀ pre name src e rest,
      m.Attachments = pre ++ (name, src) :: rest →
      (∀ p ∈ pre, ∃ b, p.2 = AttachSource.bytes b) →
      ResendClient.prepareAttachment env name src = .error e →
      c.Send env m =
        ⟨some ("failed to prepare attachment " ++ name ++ ": " ++ e), []⟩) ∧
    (∀ pre name src e rest,
      (∀ p ∈ m.Attachments, ∃ b, p.2 = AttachSource.bytes b) →
      m.InlineAttachments = pre ++ (name, src) :: rest →
      (∀ p ∈ pre, ∃ b, p.2 = AttachSource.bytes b) →
      ResendClient.prepareAttachment env name src = .error e →
      c.Send env m =
        ⟨some ("failed to prepare inline attachment " ++ name ++ ": " ++ e),
         []⟩) := by
  have hSend : c.Send env m = c.send env m := by rw [ResendClient.Send, hhook]
  constructor
  · intro pre name src e rest hsplit hpre hbad
    rw [hSend, ResendClient.send, if_neg hkey, buildResendPayload, hsplit,
        prepareAttachments_error env false pre name src e rest hpre hbad]
    rfl
  · intro pre name src e rest hreg hsplit hpre hbad
    rw [hSend, ResendClient.send, if_neg hkey, buildResendPayload,
        prepareAttachments_ok env false m.Attachments hreg, hsplit,
        prepareAttachments_error env true pre name src e rest hpre hbad]
    rfl

/-- C5 witness: a failing regular attachment and a failing inline
attachment each abort the send with the filename in the error and zero
requests. -/
theorem send_attachment_failure_aborts_witness :
    client1.Send env0 msgBadAtt =
      ⟨some ("failed to prepare attachment " ++ "bad.txt" ++ ": " ++
             "read failed"), []⟩ ∧
    client1.Send env0 msgBadInline =
      ⟨some ("failed to prepare inline attachment " ++ "logo.png" ++ ": " ++
             "detect failed"), []⟩ :=
  ⟨(send_attachment_failure_aborts client1 env0 msgBadAtt (by decide) rfl).1
      [] "bad.txt" (AttachSource.readFailure "read failed") "read failed" []
      rfl (by intro p hp; simp at hp) rfl,
   (send_attachment_failure_aborts client1 env0 msgBadInline (by decide) rfl).2
      [] "logo.png" (AttachSource.detectFailure "detect failed") "detect failed"
      [] (by intro p hp; simp [msgBadInline, msg0] at hp; exact ⟨[104, 105], by rw [hp]⟩)
      rfl (by intro p hp; simp at hp) rfl⟩

/-- A source that yields bytes that are all valid byte values. -/
def healthyValid : AttachSource → Bool
  | .bytes b => b.all (fun x => x < 256)
  | .detectFailure _ => false
  | .readFailure _ => false

theorem healthyValid_bytes {src : AttachSource} (h : healthyValid src = true) :
    ∃ b, src = AttachSource.bytes b ∧ ValidBytes b := by
  cases src with
  | bytes b =>
    refine ⟨b, rfl, ?_⟩
    intro x hx
    have := List.all_eq_true.mp h x hx
    simpa using this
  | detectFailure e => simp [healthyValid] at h
  | readFailure e => simp [healthyValid] at h

/-- C6: with all attachment streams healthy, the payload attachment list
length is the number of regular plus inline attachments, and each entry's
content is base64 that decodes back to exactly the bytes of the
corresponding source (regular ones first, then inline, in order). -/
theorem send_attachment_roundtrip (env : Env) (m : Message)
    (hatt : ∀ p ∈ m.Attachments ++ m.InlineAttachments,
      healthyValid p.2 = true) :
    ∃ payload, buildResendPayload env m = .ok payload ∧
      payload.Attachments.length =
        m.Attachments.length + m.InlineAttachments.length ∧
      ∀ i, i < payload.Attachments.length → ∃ b,
        ((m.Attachments ++ m.InlineAttachments).getD i
            ("", AttachSource.bytes [])).2 = AttachSource.bytes b ∧
        (payload.Attachments.getD i ⟨"", "", ""⟩).Content = base64Encode b ∧
        base64Decode ((payload.Attachments.getD i ⟨"", "", ""⟩).Content) =
          some b := by
  have hbytes : ∀ p ∈ m.Attachments ++ m.InlineAttachments,
      ∃ b, p.2 = AttachSource.bytes b ∧ ValidBytes b :=
    fun p hp => healthyValid_bytes (hatt p hp)
  have h1 := prepareAttachments_ok env false m.Attachments
    (fun p hp => ⟨(hbytes p (List.mem_append_left _ hp)).choose,
      (hbytes p (List.mem_append_left _ hp)).choose_spec.1⟩)
  have h2 := prepareAttachments_ok env true m.InlineAttachments
    (fun p hp => ⟨(hbytes p (List.mem_append_right _ hp)).choose,
      (hbytes p (List.mem_append_right _ hp)).choose_spec.1⟩)
  rw [buildResendPayload, h1, h2]
  refine ⟨_, rfl, ?_, ?_⟩
  · simp
  · intro i hi
    simp only [← List.map_append] at hi ⊢
    rw [List.length_map] at hi
    obtain ⟨b, hb, hvb⟩ :=
      hbytes ((m.Attachments ++ m.InlineAttachments)[i]) (List.getElem_mem hi)
    refine ⟨b, ?_, ?_, ?_⟩
    · rw [List.getD_eq_getElem _ _ hi]
      exact hb
    · rw [List.getD_eq_getElem _ _ (by simpa using hi), List.getElem_map]
      rw [attachmentOf, hb]
    · rw [List.getD_eq_getElem _ _ (by simpa using hi), List.getElem_map]
      rw [attachmentOf, hb]
      show base64DecodeChars (base64EncodeChars b) = some b
      exact base64_roundtrip b hvb

/-- C6 witness: one regular (`test.txt`, bytes of `"test"`) and one inline
(`pixel`, two bytes) attachment: the payload has two entries whose contents
decode back to the original bytes. -/
theorem send_attachment_roundtrip_witness :
    ∃ payload, buildResendPayload env0 msgAtt = .ok payload ∧
      payload.Attachments.length =
        msgAtt.Attachments.length + msgAtt.InlineAttachments.length ∧
      ∀ i, i < payload.Attachments.length → ∃ b,
        ((msgAtt.Attachments ++ msgAtt.InlineAttachments).getD i
            ("", AttachSource.bytes [])).2 = AttachSource.bytes b ∧
        (payload.Attachments.getD i ⟨"", "", ""⟩).Content = base64Encode b ∧
        base64Decode ((payload.Attachments.getD i ⟨"", "", ""⟩).Content) =
          some b :=
  send_attachment_roundtrip env0 msgAtt (by decide)

end ResendVerify
